import Mathlib

/-!
Shallow embedding of the `learn_algo` repository (files `learn/bloom_filter.h` and
`learn/reservoir_sampling.h`).

Machine integers (`std::size_t`, 64 bits on the target platform) are modelled as `Nat`
with explicit reduction modulo `2 ^ 64` at the operations where C++ unsigned arithmetic
wraps (`<<`, `+`, `*`).  `std::vector<bool>` is a `List Bool`; `std::vector<Value>` is a
`List α`.  The injected hash capability `HashT` is a parameter `H : α → Nat`.  The
`throw std::runtime_error` paths of `filterUnion` / `filterIntersection` are an
`Except String` result.  The random draw of `std::uniform_int_distribution<>(0, n)` is
modelled by passing the drawn value explicitly; its defining property (the draw lies in
the inclusive range `[0, n]`) becomes a hypothesis of the theorems about `process`.
-/

/-- `2 ^ 64`, the modulus of `std::size_t` arithmetic on the target platform. -/
def U64 : Nat := 2 ^ 64

/-- `const auto shift_by = sizeof(Index) / 2;` with `sizeof(std::size_t) = 8` bytes:
the shift count is `4` (bits). -/
def shift_by : Nat := 8 / 2

/-- `Index hash_a = hash << shift_by;` — an unsigned 64-bit left shift,
i.e. multiplication by `2 ^ shift_by` modulo `2 ^ 64`. -/
def hashA (h : Nat) : Nat := ((h % U64) * 2 ^ shift_by) % U64

/-- `Index hash_b = hash >> shift_by;` — an unsigned right shift,
i.e. division by `2 ^ shift_by`. -/
def hashB (h : Nat) : Nat := (h % U64) / 2 ^ shift_by

/-- `BloomFilter::hash`: derives the two base hash values from one underlying hash. -/
def splitHash (h : Nat) : Nat × Nat := (hashA h, hashB h)

/-- The state of `learn::BloomFilter`: the probe count `num_hashes_` and the bit
array `buckets_`. -/
structure BloomFilter where
  num_hashes : Nat
  buckets : List Bool
deriving DecidableEq

/-- The public constructor `BloomFilter(num_buckets, num_hashes)`:
`buckets_(num_buckets, false), num_hashes_(num_hashes)`. -/
def BloomFilter.ofParams (num_buckets num_hashes : Nat) : BloomFilter :=
  { num_hashes := num_hashes, buckets := List.replicate num_buckets false }

/-- Accessor `numBuckets()`, i.e. `buckets_.size()`. -/
def BloomFilter.numBuckets (f : BloomFilter) : Nat := f.buckets.length

/-- Accessor `numHashes()`. -/
def BloomFilter.numHashes (f : BloomFilter) : Nat := f.num_hashes

/-- `num_hashes = Index(std::ceil(std::log(1.0 / false_positive_error) / std::log(2)))`
from `BloomFilter::make`, with the `double` computation modelled in exact real
arithmetic. -/
noncomputable def makeNumHashes (false_positive_error : ℝ) : Nat :=
  ⌈Real.log (1 / false_positive_error) / Real.log 2⌉₊

/-- `num_buckets = Index(std::ceil(max_num * (num_hashes / std::log(2))))` from
`BloomFilter::make`, with the `double` computation modelled in exact real arithmetic. -/
noncomputable def makeNumBuckets (max_num : Nat) (num_hashes : Nat) : Nat :=
  ⌈(max_num : ℝ) * ((num_hashes : ℝ) / Real.log 2)⌉₊

/-- `BloomFilter::make(max_num, false_positive_error)`. -/
noncomputable def BloomFilter.make (max_num : Nat) (false_positive_error : ℝ) : BloomFilter :=
  BloomFilter.ofParams (makeNumBuckets max_num (makeNumHashes false_positive_error))
    (makeNumHashes false_positive_error)

/-- One probe index: `(hash_a + n * hash_b) % buckets_.size()`, where the addition and
multiplication wrap modulo `2 ^ 64` before the reduction modulo the bucket count.
(`Nat.mod` by `0` is the identity; the C++ modulo-by-zero case is surfaced separately
by the `Checked` variants below.) -/
def BloomFilter.probe (f : BloomFilter) (h : Nat) (n : Nat) : Nat :=
  ((hashA h + n * hashB h) % U64) % f.buckets.length

/-- The probe sequence of one `record`/`contains` call: `n` ranges over
`0, ..., num_hashes_ - 1`.  The bucket count is unchanged by the assignments inside the
loop, so precomputing the whole sequence is faithful to the source loop. -/
def BloomFilter.probeList (f : BloomFilter) (h : Nat) : List Nat :=
  (List.range f.num_hashes).map (f.probe h)

/-- Setting `buckets_[n] = true` for each listed index, in order.  (`List.set` out of
range is a no-op; with a positive bucket count every probe index is in range.) -/
def setTrues (bs : List Bool) (ns : List Nat) : List Bool :=
  ns.foldl (fun acc n => acc.set n true) bs

/-- `BloomFilter::record(value)`. -/
def BloomFilter.record {α : Type} (f : BloomFilter) (H : α → Nat) (v : α) : BloomFilter :=
  { f with buckets := setTrues f.buckets (f.probeList (H v)) }

/-- A sequence of `record` calls, in order. -/
def BloomFilter.recordAll {α : Type} (f : BloomFilter) (H : α → Nat) (vs : List α) :
    BloomFilter :=
  vs.foldl (fun g w => g.record H w) f

/-- `BloomFilter::contains(value)`: false as soon as a probed bucket is false, true
only if all probed buckets are true (`List.all` short-circuits like the source loop). -/
def BloomFilter.contains {α : Type} (f : BloomFilter) (H : α → Nat) (v : α) : Bool :=
  (f.probeList (H v)).all (fun idx => f.buckets.getD idx false)

/-- `numBucketsPopulated()`: `std::count(buckets_.begin(), buckets_.end(), true)`. -/
def BloomFilter.numBucketsPopulated (f : BloomFilter) : Nat := f.buckets.count true

/-- `BloomFilter::operator==`: `num_hashes_ == other.num_hashes_ && buckets_ == other.buckets_`
(element-wise vector equality, which requires equal lengths). -/
def BloomFilter.beq (a b : BloomFilter) : Bool :=
  a.num_hashes == b.num_hashes && a.buckets == b.buckets

/-- `BloomFilter::filterUnion`: throws when the hash counts or bucket counts differ,
otherwise builds a filter of the same shape whose buckets are the element-wise OR. -/
def BloomFilter.filterUnion (lhs rhs : BloomFilter) : Except String BloomFilter :=
  if lhs.numHashes ≠ rhs.numHashes then
    Except.error "error! number of hashes dont match for union"
  else if lhs.numBuckets ≠ rhs.numBuckets then
    Except.error "error! number of buckets dont match for union"
  else
    Except.ok { num_hashes := lhs.num_hashes,
                buckets := List.zipWith (fun a b => a || b) lhs.buckets rhs.buckets }

/-- `BloomFilter::filterIntersection`: same preconditions (and, in the source, the same
error strings) as `filterUnion`, with element-wise AND. -/
def BloomFilter.filterIntersection (lhs rhs : BloomFilter) : Except String BloomFilter :=
  if lhs.numHashes ≠ rhs.numHashes then
    Except.error "error! number of hashes dont match for union"
  else if lhs.numBuckets ≠ rhs.numBuckets then
    Except.error "error! number of buckets dont match for union"
  else
    Except.ok { num_hashes := lhs.num_hashes,
                buckets := List.zipWith (fun a b => a && b) lhs.buckets rhs.buckets }

/-- The `record` loop with the C++ undefined behaviour made explicit: each iteration
computes `% buckets_.size()`, which is a modulo by zero (`none`) when the filter has no
buckets. -/
def recordLoop (f : BloomFilter) (h : Nat) : List Bool → List Nat → Option (List Bool)
  | bs, [] => some bs
  | bs, n :: ns =>
    if f.buckets.length = 0 then none
    else recordLoop f h (bs.set (f.probe h n) true) ns

/-- `BloomFilter::record` with the modulo-by-zero undefined behaviour surfaced as
`none`. -/
def BloomFilter.recordChecked {α : Type} (f : BloomFilter) (H : α → Nat) (v : α) :
    Option BloomFilter :=
  (recordLoop f (H v) f.buckets (List.range f.num_hashes)).map
    (fun bs => { f with buckets := bs })

/-- The `contains` loop with the modulo-by-zero undefined behaviour made explicit,
keeping the early `return false`. -/
def containsLoop (f : BloomFilter) (h : Nat) : List Nat → Option Bool
  | [] => some true
  | n :: ns =>
    if f.buckets.length = 0 then none
    else if f.buckets.getD (f.probe h n) false = false then some false
    else containsLoop f h ns

/-- `BloomFilter::contains` with the modulo-by-zero undefined behaviour surfaced as
`none`. -/
def BloomFilter.containsChecked {α : Type} (f : BloomFilter) (H : α → Nat) (v : α) :
    Option Bool :=
  containsLoop f (H v) (List.range f.num_hashes)

/-- The state of `learn::ReservoirSampling`: `num_to_sample_`, `num_processed_` and
`samples_` (the owned `std::mt19937` is externalised: draws are passed to `process`). -/
structure ReservoirSampling (α : Type) where
  num_to_sample : Nat
  num_processed : Nat
  samples : List α
deriving DecidableEq

/-- The constructor `ReservoirSampling(num_to_sample, rand_gen)`: counters start at
zero and the sample vector starts empty (`reserve` only affects capacity). -/
def ReservoirSampling.init (α : Type) (num_to_sample : Nat) : ReservoirSampling α :=
  { num_to_sample := num_to_sample, num_processed := 0, samples := [] }

/-- Accessor `numToSample()`. -/
def ReservoirSampling.numToSample {α : Type} (s : ReservoirSampling α) : Nat :=
  s.num_to_sample

/-- Accessor `numProcessed()`. -/
def ReservoirSampling.numProcessed {α : Type} (s : ReservoirSampling α) : Nat :=
  s.num_processed

/-- `ReservoirSampling::process(value)`.  `random_index` is the value drawn by
`std::uniform_int_distribution<>(0, numProcessed())` before any mutation; theorems
assume `random_index ≤ num_processed` (the distribution range).  Returns the updated
state and `sample_value`. -/
def ReservoirSampling.process {α : Type} (s : ReservoirSampling α) (random_index : Nat)
    (value : α) : ReservoirSampling α × Bool :=
  let sample_value : Bool := decide (random_index < s.num_to_sample)
  let samples :=
    if sample_value then
      if s.num_processed ≥ s.num_to_sample then s.samples.set random_index value
      else s.samples ++ [value]
    else s.samples
  ({ s with samples := samples, num_processed := s.num_processed + 1 }, sample_value)

/-- A sequence of `process` calls: each input pairs the streamed value with the
drawn `random_index` of that call. -/
def ReservoirSampling.processRun {α : Type} (s : ReservoirSampling α)
    (inputs : List (α × Nat)) : ReservoirSampling α :=
  inputs.foldl (fun acc p => (acc.process p.2 p.1).1) s

/-- The draws of a run are in range: the `n`-th draw is at most the count of elements
processed before that call (`uniform_int_distribution<>(0, numProcessed())`). -/
def validDraws {α : Type} : Nat → List (α × Nat) → Bool
  | _, [] => true
  | p, x :: rest => decide (x.2 ≤ p) && validDraws (p + 1) rest

/-! ### Helper lemmas about `setTrues` -/

theorem setTrues_nil (bs : List Bool) : setTrues bs [] = bs := rfl

theorem setTrues_cons (bs : List Bool) (n : Nat) (ns : List Nat) :
    setTrues bs (n :: ns) = setTrues (bs.set n true) ns := rfl

theorem setTrues_length (ns : List Nat) (bs : List Bool) :
    (setTrues bs ns).length = bs.length := by
  induction ns generalizing bs with
  | nil => rfl
  | cons n ns ih =>
    rw [setTrues_cons, ih]
    exact List.length_set bs n true

theorem getD_setTrues (ns : List Nat) (bs : List Bool) (i : Nat) (hi : i < bs.length) :
    (setTrues bs ns).getD i false = (bs.getD i false || ns.any (fun n => n == i)) := by
  induction ns generalizing bs with
  | nil => simp [setTrues_nil]
  | cons n ns ih =>
    rw [setTrues_cons, ih (bs.set n true) (by simpa using hi)]
    by_cases h : n = i
    · subst h
      simp [List.getD_eq_getElem?_getD, List.getElem?_set_self hi]
    · have hb : (n == i) = false := beq_eq_false_iff_ne.mpr h
      simp [List.getD_eq_getElem?_getD, List.getElem?_set_ne h, List.any_cons, hb]

theorem getD_setTrues_mono (ns : List Nat) (bs : List Bool) (i : Nat)
    (h : bs.getD i false = true) : (setTrues bs ns).getD i false = true := by
  have hi : i < bs.length := by
    by_contra hl
    push_neg at hl
    rw [List.getD_eq_getElem?_getD, List.getElem?_eq_none hl] at h
    simp at h
  rw [getD_setTrues ns bs i hi, h, Bool.true_or]

theorem getD_setTrues_mem (ns : List Nat) (bs : List Bool) (n : Nat)
    (hn : n ∈ ns) (hlt : n < bs.length) : (setTrues bs ns).getD n false = true := by
  rw [getD_setTrues ns bs n hlt]
  have : ns.any (fun m => m == n) = true := List.any_eq_true.mpr ⟨n, hn, by simp⟩
  rw [this, Bool.or_true]

theorem setTrues_set_comm (ns : List Nat) (bs : List Bool) (m : Nat) :
    setTrues (bs.set m true) ns = (setTrues bs ns).set m true := by
  induction ns generalizing bs with
  | nil => rfl
  | cons n ns ih =>
    rw [setTrues_cons, setTrues_cons]
    by_cases h : n = m
    · subst h
      rw [List.set_set, ← ih, List.set_set]
    · rw [List.set_comm true true bs (fun hc => h hc.symm), ih]

theorem setTrues_setTrues_comm (ms ns : List Nat) (bs : List Bool) :
    setTrues (setTrues bs ms) ns = setTrues (setTrues bs ns) ms := by
  induction ms generalizing bs with
  | nil => rfl
  | cons m ms ih =>
    rw [setTrues_cons, ih, setTrues_set_comm, setTrues_cons, setTrues_set_comm]

/-! ### Basic lemmas about `record`, `probe` and `contains` -/

theorem record_num_hashes {α : Type} (f : BloomFilter) (H : α → Nat) (v : α) :
    (f.record H v).num_hashes = f.num_hashes := rfl

theorem record_buckets_length {α : Type} (f : BloomFilter) (H : α → Nat) (v : α) :
    (f.record H v).buckets.length = f.buckets.length :=
  setTrues_length _ _

theorem probe_record {α : Type} (f : BloomFilter) (H : α → Nat) (v : α) (h n : Nat) :
    (f.record H v).probe h n = f.probe h n := by
  unfold BloomFilter.probe
  rw [record_buckets_length]

theorem probeList_record {α : Type} (f : BloomFilter) (H : α → Nat) (v : α) (h : Nat) :
    (f.record H v).probeList h = f.probeList h := by
  unfold BloomFilter.probeList
  rw [record_num_hashes]
  exact List.map_congr_left (fun n _ => probe_record f H v h n)

theorem probe_lt (f : BloomFilter) (h n : Nat) (hnb : 0 < f.buckets.length) :
    f.probe h n < f.buckets.length :=
  Nat.mod_lt _ hnb

theorem probeList_mem_lt (f : BloomFilter) (h : Nat) (idx : Nat)
    (hidx : idx ∈ f.probeList h) (hnb : 0 < f.buckets.length) :
    idx < f.buckets.length := by
  rcases List.mem_map.mp hidx with ⟨n, _, rfl⟩
  exact probe_lt f h n hnb

theorem record_getD {α : Type} (f : BloomFilter) (H : α → Nat) (v : α) (i : Nat)
    (hi : i < f.buckets.length) :
    (f.record H v).buckets.getD i false
      = (f.buckets.getD i false || (f.probeList (H v)).any (fun n => n == i)) :=
  getD_setTrues _ _ _ hi

theorem record_getD_mono {α : Type} (f : BloomFilter) (H : α → Nat) (v : α) (i : Nat)
    (h : f.buckets.getD i false = true) :
    (f.record H v).buckets.getD i false = true :=
  getD_setTrues_mono _ _ _ h

theorem contains_record_self {α : Type} (f : BloomFilter) (H : α → Nat) (v : α)
    (hnb : 0 < f.buckets.length) : (f.record H v).contains H v = true := by
  unfold BloomFilter.contains
  rw [probeList_record]
  refine List.all_eq_true.mpr (fun idx hidx => ?_)
  have hlt : idx < f.buckets.length := probeList_mem_lt f (H v) idx hidx hnb
  exact getD_setTrues_mem _ _ _ hidx hlt

theorem contains_record_mono {α : Type} (f : BloomFilter) (H : α → Nat) (v w : α)
    (hc : f.contains H v = true) : (f.record H w).contains H v = true := by
  unfold BloomFilter.contains at hc ⊢
  rw [probeList_record]
  refine List.all_eq_true.mpr (fun idx hidx => ?_)
  exact record_getD_mono f H w idx (List.all_eq_true.mp hc idx hidx)

theorem contains_recordAll_mono {α : Type} (f : BloomFilter) (H : α → Nat) (v : α)
    (ws : List α) (hc : f.contains H v = true) :
    (f.recordAll H ws).contains H v = true := by
  induction ws generalizing f with
  | nil => exact hc
  | cons w ws ih => exact ih (f.record H w) (contains_record_mono f H v w hc)

/-- Claim C1: every recorded value is contained immediately after `record` and after
any further sequence of `record` calls on the same filter (no false negatives), and a
`record` call never turns a true bucket false (buckets are monotone). -/
theorem bloomFilter_no_false_negatives {α : Type} (H : α → Nat) (f : BloomFilter)
    (v w : α) (ws : List α) (i : Nat) (hnb : 0 < f.numBuckets) :
    ((f.record H v).recordAll H ws).contains H v = true
    ∧ (f.buckets.getD i false = true → (f.record H w).buckets.getD i false = true) := by
  constructor
  · exact contains_recordAll_mono _ H v ws (contains_record_self f H v hnb)
  · exact record_getD_mono f H w i

/-- Witness for C1 on a concrete filter, value and follow-up stream. -/
theorem bloomFilter_no_false_negatives_witness :
    0 < (BloomFilter.ofParams 5 2).numBuckets
    ∧ ((((BloomFilter.ofParams 5 2).record id 3).recordAll id [10, 11]).contains id 3 = true
       ∧ ((BloomFilter.ofParams 5 2).buckets.getD 0 false = true →
           ((BloomFilter.ofParams 5 2).record id 10).buckets.getD 0 false = true)) :=
  ⟨by decide, bloomFilter_no_false_negatives id (BloomFilter.ofParams 5 2) 3 10 [10, 11] 0
    (by decide)⟩

/-! ### Reservoir sampling lemmas -/

theorem process_num_processed {α : Type} (s : ReservoirSampling α) (j : Nat) (v : α) :
    (s.process j v).1.num_processed = s.num_processed + 1 := rfl

theorem process_num_to_sample {α : Type} (s : ReservoirSampling α) (j : Nat) (v : α) :
    (s.process j v).1.num_to_sample = s.num_to_sample := rfl

theorem process_accepted {α : Type} (s : ReservoirSampling α) (j : Nat) (v : α) :
    (s.process j v).2 = decide (j < s.num_to_sample) := rfl

theorem process_samples_append {α : Type} (s : ReservoirSampling α) (j : Nat) (v : α)
    (hlt : s.num_processed < s.num_to_sample) (hj : j ≤ s.num_processed) :
    (s.process j v).1.samples = s.samples ++ [v] := by
  unfold ReservoirSampling.process
  have hacc : j < s.num_to_sample := Nat.lt_of_le_of_lt hj hlt
  simp [hacc, Nat.not_le.mpr hlt]

theorem process_samples_overwrite {α : Type} (s : ReservoirSampling α) (j : Nat) (v : α)
    (hge : s.num_to_sample ≤ s.num_processed) (hacc : j < s.num_to_sample) :
    (s.process j v).1.samples = s.samples.set j v := by
  unfold ReservoirSampling.process
  simp [hacc, hge]

theorem process_samples_reject {α : Type} (s : ReservoirSampling α) (j : Nat) (v : α)
    (hrej : s.num_to_sample ≤ j) : (s.process j v).1.samples = s.samples := by
  unfold ReservoirSampling.process
  simp [Nat.not_lt.mpr hrej]

theorem process_samples_length {α : Type} (s : ReservoirSampling α) (j : Nat) (v : α)
    (hinv : s.samples.length = min s.num_processed s.num_to_sample)
    (hj : j ≤ s.num_processed) :
    (s.process j v).1.samples.length = min (s.num_processed + 1) s.num_to_sample := by
  by_cases hlt : s.num_processed < s.num_to_sample
  · rw [process_samples_append s j v hlt hj, List.length_append, hinv]
    simp
    omega
  · push_neg at hlt
    by_cases hacc : j < s.num_to_sample
    · rw [process_samples_overwrite s j v hlt hacc, List.length_set, hinv]
      omega
    · push_neg at hacc
      rw [process_samples_reject s j v hacc, hinv]
      omega

/-- Claim C2: one `process(value)` call with draw `j` from `[0, numProcessed()]`
(the count before the increment): accepted iff `j < capacity`; on acceptance the value
is appended while the reservoir is not yet full and otherwise overwrites slot `j`
(which is in range, so `samples_.at(j)` does not throw); the processed counter grows by
exactly one either way; the call returns the acceptance flag.  The hypothesis `hinv` is
the size invariant, which holds in every reachable state (claim C3). -/
theorem reservoirSampling_process_spec {α : Type} (s : ReservoirSampling α) (j : Nat)
    (v : α) (hinv : s.samples.length = min s.numProcessed s.numToSample)
    (hj : j ≤ s.numProcessed) :
    ((s.process j v).2 = decide (j < s.numToSample))
    ∧ ((s.process j v).1.numProcessed = s.numProcessed + 1)
    ∧ ((s.process j v).1.numToSample = s.numToSample)
    ∧ ((s.process j v).2 = true →
        (s.samples.length < s.numToSample → (s.process j v).1.samples = s.samples ++ [v])
        ∧ (s.numToSample ≤ s.samples.length →
            j < s.samples.length ∧ (s.process j v).1.samples = s.samples.set j v))
    ∧ ((s.process j v).2 = false → (s.process j v).1.samples = s.samples) := by
  unfold ReservoirSampling.numProcessed ReservoirSampling.numToSample at hinv ⊢
  unfold ReservoirSampling.numProcessed at hj
  refine ⟨rfl, rfl, rfl, ?_, ?_⟩
  · intro hacc
    rw [process_accepted] at hacc
    have haccn : j < s.num_to_sample := of_decide_eq_true hacc
    constructor
    · intro hroom
      have hlt : s.num_processed < s.num_to_sample := by omega
      exact process_samples_append s j v hlt hj
    · intro hfull
      have hge : s.num_to_sample ≤ s.num_processed := by omega
      exact ⟨by omega, process_samples_overwrite s j v hge haccn⟩
  · intro hrej
    rw [process_accepted] at hrej
    have hrejn : s.num_to_sample ≤ j := Nat.not_lt.mp (of_decide_eq_false hrej)
    exact process_samples_reject s j v hrejn

/-- Witness for C2 on a concrete full sampler state. -/
theorem reservoirSampling_process_spec_witness :
    (ReservoirSampling.mk 2 3 [5, 6]).samples.length
        = min (ReservoirSampling.mk 2 3 [5, 6]).numProcessed
            (ReservoirSampling.mk 2 3 [5, 6]).numToSample
    ∧ 1 ≤ (ReservoirSampling.mk 2 3 [5, 6]).numProcessed
    ∧ (((ReservoirSampling.mk 2 3 [5, 6]).process 1 9).2
          = decide (1 < (ReservoirSampling.mk 2 3 [5, 6]).numToSample)
       ∧ (((ReservoirSampling.mk 2 3 [5, 6]).process 1 9).1.numProcessed
          = (ReservoirSampling.mk 2 3 [5, 6]).numProcessed + 1)
       ∧ (((ReservoirSampling.mk 2 3 [5, 6]).process 1 9).1.numToSample
          = (ReservoirSampling.mk 2 3 [5, 6]).numToSample)
       ∧ (((ReservoirSampling.mk 2 3 [5, 6]).process 1 9).2 = true →
           ((ReservoirSampling.mk 2 3 [5, 6]).samples.length
               < (ReservoirSampling.mk 2 3 [5, 6]).numToSample →
             ((ReservoirSampling.mk 2 3 [5, 6]).process 1 9).1.samples
               = (ReservoirSampling.mk 2 3 [5, 6]).samples ++ [9])
           ∧ ((ReservoirSampling.mk 2 3 [5, 6]).numToSample
               ≤ (ReservoirSampling.mk 2 3 [5, 6]).samples.length →
             1 < (ReservoirSampling.mk 2 3 [5, 6]).samples.length
             ∧ ((ReservoirSampling.mk 2 3 [5, 6]).process 1 9).1.samples
               = (ReservoirSampling.mk 2 3 [5, 6]).samples.set 1 9))
       ∧ (((ReservoirSampling.mk 2 3 [5, 6]).process 1 9).2 = false →
           ((ReservoirSampling.mk 2 3 [5, 6]).process 1 9).1.samples
             = (ReservoirSampling.mk 2 3 [5, 6]).samples)) :=
  ⟨by decide, by decide,
    reservoirSampling_process_spec (ReservoirSampling.mk 2 3 [5, 6]) 1 9 (by decide)
      (by decide)⟩

theorem processRun_nil {α : Type} (s : ReservoirSampling α) : s.processRun [] = s := rfl

theorem processRun_cons {α : Type} (s : ReservoirSampling α) (x : α × Nat)
    (rest : List (α × Nat)) :
    s.processRun (x :: rest) = ((s.process x.2 x.1).1).processRun rest := rfl

theorem processRun_invariant {α : Type} (inputs : List (α × Nat)) (s : ReservoirSampling α)
    (hdraws : validDraws s.num_processed inputs = true)
    (hinv : s.samples.length = min s.num_processed s.num_to_sample) :
    (s.processRun inputs).samples.length
        = min (s.num_processed + inputs.length) s.num_to_sample
    ∧ (s.processRun inputs).num_processed = s.num_processed + inputs.length
    ∧ (s.processRun inputs).num_to_sample = s.num_to_sample := by
  induction inputs generalizing s with
  | nil => simpa [processRun_nil] using hinv
  | cons x rest ih =>
    rw [processRun_cons]
    unfold validDraws at hdraws
    rw [Bool.and_eq_true, decide_eq_true_eq] at hdraws
    have hstep := process_samples_length s x.2 x.1 hinv hdraws.1
    have hdraws2 : validDraws ((s.process x.2 x.1).1).num_processed rest = true := by
      rw [process_num_processed]
      exact hdraws.2
    have := ih ((s.process x.2 x.1).1) hdraws2 (by rw [hstep, process_num_processed,
      process_num_to_sample])
    rw [process_num_processed, process_num_to_sample] at this
    refine ⟨?_, ?_, this.2.2⟩
    · rw [this.1, List.length_cons]
      omega
    · rw [this.2.1, List.length_cons]
      omega

theorem processRun_append_all {α : Type} (inputs : List (α × Nat)) (s : ReservoirSampling α)
    (hdraws : validDraws s.num_processed inputs = true)
    (hfits : s.num_processed + inputs.length ≤ s.num_to_sample) :
    (s.processRun inputs).samples = s.samples ++ inputs.map Prod.fst := by
  induction inputs generalizing s with
  | nil => simp [processRun_nil]
  | cons x rest ih =>
    rw [processRun_cons]
    unfold validDraws at hdraws
    rw [Bool.and_eq_true, decide_eq_true_eq] at hdraws
    have hlen : rest.length + 1 = (x :: rest).length := by simp
    have hlt : s.num_processed < s.num_to_sample := by
      have := List.length_cons x rest
      omega
    have happ := process_samples_append s x.2 x.1 hlt hdraws.1
    have hdraws2 : validDraws ((s.process x.2 x.1).1).num_processed rest = true := by
      rw [process_num_processed]
      exact hdraws.2
    have hfits2 : ((s.process x.2 x.1).1).num_processed + rest.length
        ≤ ((s.process x.2 x.1).1).num_to_sample := by
      rw [process_num_processed, process_num_to_sample]
      have := List.length_cons x rest
      omega
    rw [ih ((s.process x.2 x.1).1) hdraws2 hfits2, happ]
    simp

/-- Claim C3: for a sampler of capacity `k > 0` and any sequence of `process` calls
with in-range draws: the size invariant `samples.length = min(numProcessed, k)` holds,
`numProcessed` counts the calls, after exactly the first `k` elements the reservoir
holds exactly those `k` elements (here: in order), and after `N > k` elements the
reservoir still holds exactly `k` elements. -/
theorem reservoirSampling_invariants {α : Type} (k : Nat) (inputs : List (α × Nat))
    (_hk : 0 < k) (hdraws : validDraws 0 inputs = true) :
    ((ReservoirSampling.init α k).processRun inputs).samples.length
        = min ((ReservoirSampling.init α k).processRun inputs).numProcessed k
    ∧ ((ReservoirSampling.init α k).processRun inputs).numProcessed = inputs.length
    ∧ (inputs.length = k →
        ((ReservoirSampling.init α k).processRun inputs).samples = inputs.map Prod.fst)
    ∧ (k < inputs.length →
        ((ReservoirSampling.init α k).processRun inputs).samples.length = k) := by
  have hinit_p : (ReservoirSampling.init α k).num_processed = 0 := rfl
  have hinit_k : (ReservoirSampling.init α k).num_to_sample = k := rfl
  have hinit_s : (ReservoirSampling.init α k).samples = [] := rfl
  have hinv0 : (ReservoirSampling.init α k).samples.length
      = min (ReservoirSampling.init α k).num_processed
          (ReservoirSampling.init α k).num_to_sample := by
    rw [hinit_p, hinit_s]
    simp
  have hrun := processRun_invariant inputs (ReservoirSampling.init α k) hdraws hinv0
  rw [hinit_p, hinit_k] at hrun
  unfold ReservoirSampling.numProcessed
  refine ⟨?_, ?_, ?_, ?_⟩
  · rw [hrun.1, hrun.2.1]
  · rw [hrun.2.1]
    omega
  · intro hlen
    have hall := processRun_append_all inputs (ReservoirSampling.init α k) hdraws
      (by rw [hinit_p, hinit_k]; omega)
    rw [hinit_s] at hall
    simpa using hall
  · intro hgt
    rw [hrun.1]
    omega

/-- Witness for C3: capacity 2, three processed elements with in-range draws. -/
theorem reservoirSampling_invariants_witness :
    0 < 2
    ∧ validDraws 0 [((10 : Nat), 0), (20, 1), (30, 1)] = true
    ∧ (((ReservoirSampling.init Nat 2).processRun [(10, 0), (20, 1), (30, 1)]).samples.length
        = min ((ReservoirSampling.init Nat 2).processRun
            [(10, 0), (20, 1), (30, 1)]).numProcessed 2
       ∧ ((ReservoirSampling.init Nat 2).processRun
            [(10, 0), (20, 1), (30, 1)]).numProcessed = [((10 : Nat), 0), (20, 1), (30, 1)].length
       ∧ ([((10 : Nat), 0), (20, 1), (30, 1)].length = 2 →
           ((ReservoirSampling.init Nat 2).processRun [(10, 0), (20, 1), (30, 1)]).samples
             = [((10 : Nat), 0), (20, 1), (30, 1)].map Prod.fst)
       ∧ (2 < [((10 : Nat), 0), (20, 1), (30, 1)].length →
           ((ReservoirSampling.init Nat 2).processRun
             [(10, 0), (20, 1), (30, 1)]).samples.length = 2)) :=
  ⟨by decide, by decide,
    reservoirSampling_invariants 2 [(10, 0), (20, 1), (30, 1)] (by decide) (by decide)⟩

/-! ### `make` sizing (claim C4) -/

theorem log_two_pos : 0 < Real.log 2 := Real.log_pos one_lt_two

theorem makeNumHashes_eval : makeNumHashes (1 / 100) = 7 := by
  unfold makeNumHashes
  have h100 : (1 : ℝ) / (1 / 100) = 100 := by norm_num
  rw [h100, Nat.ceil_eq_iff (by norm_num : (7 : ℕ) ≠ 0)]
  constructor
  · show ((7 - 1 : ℕ) : ℝ) < Real.log 100 / Real.log 2
    rw [lt_div_iff₀ log_two_pos]
    have h64 : ((7 - 1 : ℕ) : ℝ) * Real.log 2 = Real.log ((2 : ℝ) ^ (6 : ℕ)) := by
      rw [Real.log_pow]
    rw [h64, show ((2 : ℝ) ^ (6 : ℕ)) = 64 by norm_num]
    exact Real.log_lt_log (by norm_num) (by norm_num)
  · rw [div_le_iff₀ log_two_pos]
    have h128 : ((7 : ℕ) : ℝ) * Real.log 2 = Real.log ((2 : ℝ) ^ (7 : ℕ)) := by
      rw [Real.log_pow]
    rw [h128, show ((2 : ℝ) ^ (7 : ℕ)) = 128 by norm_num]
    exact (Real.log_le_log_iff (by norm_num) (by norm_num)).mpr (by norm_num)

theorem makeNumBuckets_eval : makeNumBuckets 300 7 = 3030 := by
  unfold makeNumBuckets
  have hform : ((300 : ℕ) : ℝ) * (((7 : ℕ) : ℝ) / Real.log 2) = 2100 / Real.log 2 := by
    push_cast
    ring
  rw [hform, Nat.ceil_eq_iff (by norm_num : (3030 : ℕ) ≠ 0)]
  have hgt := Real.log_two_gt_d9
  have hlt := Real.log_two_lt_d9
  constructor
  · rw [lt_div_iff₀ log_two_pos]
    push_cast
    nlinarith
  · rw [div_le_iff₀ log_two_pos]
    push_cast
    nlinarith

/-- Claim C4: `make` computes `numHashes = ceil(log2(1/rate))` and
`numBuckets = ceil(maxElements * numHashes / ln 2)` (the `double` arithmetic modelled
as exact reals), starts with all buckets false, and in particular `make(300, 0.01)`
yields `numHashes = 7` and `numBuckets = 3030`. -/
theorem bloomFilter_make_sizing :
    (∀ (m : Nat) (fp : ℝ),
        (BloomFilter.make m fp).numHashes = ⌈Real.logb 2 (1 / fp)⌉₊
        ∧ (BloomFilter.make m fp).numBuckets
            = ⌈(m : ℝ) * (((BloomFilter.make m fp).numHashes : ℝ)) / Real.log 2⌉₊
        ∧ (BloomFilter.make m fp).buckets
            = List.replicate (BloomFilter.make m fp).numBuckets false)
    ∧ (BloomFilter.make 300 (1 / 100)).numHashes = 7
    ∧ (BloomFilter.make 300 (1 / 100)).numBuckets = 3030 := by
  have hnum : ∀ (m : Nat) (fp : ℝ), (BloomFilter.make m fp).numHashes = makeNumHashes fp :=
    fun m fp => rfl
  have hbuck : ∀ (m : Nat) (fp : ℝ),
      (BloomFilter.make m fp).numBuckets = makeNumBuckets m (makeNumHashes fp) := by
    intro m fp
    unfold BloomFilter.make BloomFilter.ofParams BloomFilter.numBuckets
    exact List.length_replicate _ _
  refine ⟨fun m fp => ⟨?_, ?_, ?_⟩, ?_, ?_⟩
  · rw [hnum]
    unfold makeNumHashes Real.logb
    rfl
  · rw [hbuck, hnum]
    unfold makeNumBuckets
    rw [mul_div_assoc]
  · rw [hbuck]
    unfold BloomFilter.make BloomFilter.ofParams
    rfl
  · rw [hnum, makeNumHashes_eval]
  · rw [hbuck, makeNumHashes_eval, makeNumBuckets_eval]

/-! ### Unchecked construction parameters (claim C9) -/

theorem makeNumHashes_half : makeNumHashes (1 / 2) = 1 := by
  unfold makeNumHashes
  have h2 : (1 : ℝ) / (1 / 2) = 2 := by norm_num
  rw [h2, div_self (ne_of_gt log_two_pos)]
  exact Nat.ceil_one

theorem makeNumBuckets_zero (nh : Nat) : makeNumBuckets 0 nh = 0 := by
  unfold makeNumBuckets
  rw [Nat.cast_zero, zero_mul]
  exact Nat.ceil_zero

/-- Claim C9 concerns validation that the source does not perform: the sampler
constructor accepts `capacity == 0` and returns a normal zero-capacity sampler with no
error path, and `make` accepts `maxElements == 0` (and out-of-range rates) with no
validation, returning a degenerate filter with zero buckets.  This theorem evaluates
the embedded code at those inputs, exhibiting the absence of any reported
precondition-violation error. -/
theorem constructors_unchecked :
    ReservoirSampling.init Nat 0
        = { num_to_sample := 0, num_processed := 0, samples := ([] : List Nat) }
    ∧ (ReservoirSampling.init Nat 0).numToSample = 0
    ∧ BloomFilter.make 0 (1 / 2) = BloomFilter.ofParams 0 1
    ∧ (BloomFilter.make 0 (1 / 2)).numBuckets = 0 := by
  refine ⟨rfl, rfl, ?_, ?_⟩
  · unfold BloomFilter.make
    rw [makeNumHashes_half, makeNumBuckets_zero]
  · unfold BloomFilter.make
    rw [makeNumHashes_half, makeNumBuckets_zero]
    rfl

/-! ### Totality of `record` / `contains` (claim C10) -/

theorem recordLoop_pos (f : BloomFilter) (h : Nat) (hpos : 0 < f.buckets.length) :
    ∀ (ns : List Nat) (bs : List Bool),
      recordLoop f h bs ns = some (ns.foldl (fun acc n => acc.set (f.probe h n) true) bs) := by
  intro ns
  induction ns with
  | nil => intro bs; rfl
  | cons n ns ih =>
    intro bs
    unfold recordLoop
    rw [if_neg (Nat.pos_iff_ne_zero.mp hpos)]
    exact ih (bs.set (f.probe h n) true)

theorem foldl_probe_eq_setTrues (f : BloomFilter) (h : Nat) (bs : List Bool) :
    (List.range f.num_hashes).foldl (fun acc n => acc.set (f.probe h n) true) bs
      = setTrues bs (f.probeList h) := by
  unfold setTrues BloomFilter.probeList
  rw [List.foldl_map]

theorem recordChecked_pos {α : Type} (f : BloomFilter) (H : α → Nat) (v : α)
    (hpos : 0 < f.buckets.length) : f.recordChecked H v = some (f.record H v) := by
  unfold BloomFilter.recordChecked
  rw [recordLoop_pos f (H v) hpos, Option.map_some', foldl_probe_eq_setTrues]
  rfl

theorem recordChecked_zero {α : Type} (f : BloomFilter) (H : α → Nat) (v : α)
    (h0 : f.buckets.length = 0) (hnh : 0 < f.num_hashes) :
    f.recordChecked H v = none := by
  unfold BloomFilter.recordChecked
  cases hr : List.range f.num_hashes with
  | nil =>
    rw [List.range_eq_nil] at hr
    omega
  | cons n ns =>
    unfold recordLoop
    rw [if_pos h0]
    rfl

theorem containsLoop_pos (f : BloomFilter) (h : Nat) (hpos : 0 < f.buckets.length) :
    ∀ (ns : List Nat),
      containsLoop f h ns = some (ns.all (fun n => f.buckets.getD (f.probe h n) false)) := by
  intro ns
  induction ns with
  | nil => rfl
  | cons n ns ih =>
    unfold containsLoop
    rw [if_neg (Nat.pos_iff_ne_zero.mp hpos)]
    by_cases hb : f.buckets.getD (f.probe h n) false = false
    · rw [if_pos hb, List.all_cons, hb]
      rfl
    · have hb' : f.buckets.getD (f.probe h n) false = true := by
        cases hv : f.buckets.getD (f.probe h n) false
        · exact absurd hv hb
        · rfl
      rw [if_neg hb, ih, List.all_cons, hb']
      rfl

theorem contains_eq_range_all {α : Type} (f : BloomFilter) (H : α → Nat) (v : α) :
    f.contains H v
      = (List.range f.num_hashes).all (fun n => f.buckets.getD (f.probe (H v) n) false) := by
  unfold BloomFilter.contains BloomFilter.probeList
  rw [List.all_map]
  rfl

theorem containsChecked_pos {α : Type} (f : BloomFilter) (H : α → Nat) (v : α)
    (hpos : 0 < f.buckets.length) : f.containsChecked H v = some (f.contains H v) := by
  unfold BloomFilter.containsChecked
  rw [containsLoop_pos f (H v) hpos, contains_eq_range_all]

theorem containsChecked_zero {α : Type} (f : BloomFilter) (H : α → Nat) (v : α)
    (h0 : f.buckets.length = 0) (hnh : 0 < f.num_hashes) :
    f.containsChecked H v = none := by
  unfold BloomFilter.containsChecked
  cases hr : List.range f.num_hashes with
  | nil =>
    rw [List.range_eq_nil] at hr
    omega
  | cons n ns =>
    unfold containsLoop
    rw [if_pos h0]

/-- Claim C10: the public constructor accepts `numBuckets == 0` unguarded; `record` and
`contains` reduce every probe index modulo `buckets_.size()`, so they are well-defined
(every access in range, no modulo by zero) exactly when the bucket count is positive;
on a zero-bucket filter with a positive hash count both operations hit a modulo by
zero (the checked embeddings return `none`). -/
theorem bloomFilter_totality {α : Type} (H : α → Nat) (f : BloomFilter) (v : α)
    (nh : Nat) :
    (BloomFilter.ofParams 0 nh).numBuckets = 0
    ∧ (0 < f.numBuckets →
        f.recordChecked H v = some (f.record H v)
        ∧ f.containsChecked H v = some (f.contains H v)
        ∧ (∀ n : Nat, f.probe (H v) n < f.numBuckets))
    ∧ (f.numBuckets = 0 → 0 < f.numHashes →
        f.recordChecked H v = none ∧ f.containsChecked H v = none) := by
  refine ⟨?_, ?_, ?_⟩
  · unfold BloomFilter.ofParams BloomFilter.numBuckets
    exact List.length_replicate _ _
  · intro hpos
    exact ⟨recordChecked_pos f H v hpos, containsChecked_pos f H v hpos,
      fun n => probe_lt f (H v) n hpos⟩
  · intro h0 hnh
    exact ⟨recordChecked_zero f H v h0 hnh, containsChecked_zero f H v h0 hnh⟩

/-- Witness for C10, exercising both the positive-bucket and the zero-bucket case. -/
theorem bloomFilter_totality_witness :
    ((BloomFilter.ofParams 0 3).numBuckets = 0
     ∧ (0 < (BloomFilter.ofParams 4 2).numBuckets →
         (BloomFilter.ofParams 4 2).recordChecked id 9
             = some ((BloomFilter.ofParams 4 2).record id 9)
         ∧ (BloomFilter.ofParams 4 2).containsChecked id 9
             = some ((BloomFilter.ofParams 4 2).contains id 9)
         ∧ (∀ n : Nat, (BloomFilter.ofParams 4 2).probe (id 9) n
             < (BloomFilter.ofParams 4 2).numBuckets))
     ∧ ((BloomFilter.ofParams 4 2).numBuckets = 0 → 0 < (BloomFilter.ofParams 4 2).numHashes →
         (BloomFilter.ofParams 4 2).recordChecked id 9 = none
         ∧ (BloomFilter.ofParams 4 2).containsChecked id 9 = none))
    ∧ ((BloomFilter.ofParams 0 3).numBuckets = 0 → 0 < (BloomFilter.ofParams 0 3).numHashes →
        (BloomFilter.ofParams 0 3).recordChecked id 7 = none
        ∧ (BloomFilter.ofParams 0 3).containsChecked id 7 = none) :=
  ⟨bloomFilter_totality id (BloomFilter.ofParams 4 2) 9 3,
    (bloomFilter_totality id (BloomFilter.ofParams 0 3) 7 3).2.2⟩

/-! ### Double hashing (claim C5) -/

theorem hashA_eq (h : Nat) : hashA h = ((h % U64) % 2 ^ 60) * 2 ^ shift_by := by
  unfold hashA U64 shift_by
  rw [show (2 : Nat) ^ 64 = 2 ^ 60 * 2 ^ (8 / 2) by norm_num]
  exact Nat.mul_mod_mul_right _ _ _

/-- Claim C5: `record` derives `hash_a` and `hash_b` from one underlying hash by fixed
shifts of width `sizeof(Index) / 2 = 4`: `hash_b` is the high bits (the hash divided by
`2 ^ 4`) and `hash_a` is the low `60` bits shifted up; both `record` and `contains` use
exactly the probe sequence `(hash_a + n * hash_b) mod numBuckets` (with 64-bit
wrapping) for `n` ranging over `0, ..., numHashes - 1`: `record` sets exactly those
buckets to true and `contains` reads exactly those buckets. -/
theorem bloomFilter_double_hashing {α : Type} (H : α → Nat) (f : BloomFilter) (v : α)
    (i n : Nat) :
    splitHash (H v) = ((H v % U64 % 2 ^ 60) * 2 ^ shift_by, H v % U64 / 2 ^ shift_by)
    ∧ shift_by = 4
    ∧ f.probe (H v) n = ((hashA (H v) + n * hashB (H v)) % U64) % f.numBuckets
    ∧ (f.record H v).numHashes = f.numHashes
    ∧ (i < f.numBuckets →
        (f.record H v).buckets.getD i false
          = (f.buckets.getD i false
             || (List.range f.numHashes).any (fun m => f.probe (H v) m == i)))
    ∧ f.contains H v
        = (List.range f.numHashes).all (fun m => f.buckets.getD (f.probe (H v) m) false) := by
  refine ⟨?_, rfl, rfl, rfl, ?_, contains_eq_range_all f H v⟩
  · unfold splitHash
    rw [hashA_eq]
    rfl
  · intro hi
    rw [record_getD f H v i hi]
    unfold BloomFilter.probeList
    rw [List.any_map]
    rfl

/-- Witness for C5 on a concrete filter and value. -/
theorem bloomFilter_double_hashing_witness :
    splitHash (id 3) = ((id 3 % U64 % 2 ^ 60) * 2 ^ shift_by, id 3 % U64 / 2 ^ shift_by)
    ∧ shift_by = 4
    ∧ (BloomFilter.ofParams 5 2).probe (id 3) 1
        = ((hashA (id 3) + 1 * hashB (id 3)) % U64) % (BloomFilter.ofParams 5 2).numBuckets
    ∧ ((BloomFilter.ofParams 5 2).record id 3).numHashes = (BloomFilter.ofParams 5 2).numHashes
    ∧ (0 < (BloomFilter.ofParams 5 2).numBuckets →
        ((BloomFilter.ofParams 5 2).record id 3).buckets.getD 0 false
          = ((BloomFilter.ofParams 5 2).buckets.getD 0 false
             || (List.range (BloomFilter.ofParams 5 2).numHashes).any
                  (fun m => (BloomFilter.ofParams 5 2).probe (id 3) m == 0)))
    ∧ (BloomFilter.ofParams 5 2).contains id 3
        = (List.range (BloomFilter.ofParams 5 2).numHashes).all
            (fun m => (BloomFilter.ofParams 5 2).buckets.getD
              ((BloomFilter.ofParams 5 2).probe (id 3) m) false) :=
  bloomFilter_double_hashing id (BloomFilter.ofParams 5 2) 3 0 1

/-! ### Union and intersection (claims C6 and C7) -/

theorem getD_zipWith (op : Bool → Bool → Bool) (l1 l2 : List Bool)
    (hlen : l1.length = l2.length) (i : Nat) (hi : i < l1.length) :
    (List.zipWith op l1 l2).getD i false = op (l1.getD i false) (l2.getD i false) := by
  have hi2 : i < l2.length := hlen ▸ hi
  rw [List.getD_eq_getElem?_getD, List.getD_eq_getElem?_getD, List.getD_eq_getElem?_getD,
    List.getElem?_zipWith, List.getElem?_eq_getElem hi, List.getElem?_eq_getElem hi2]
  rfl

theorem filterUnion_ok (a b : BloomFilter) (hh : a.numHashes = b.numHashes)
    (hb : a.numBuckets = b.numBuckets) :
    a.filterUnion b = Except.ok
      { num_hashes := a.num_hashes,
        buckets := List.zipWith (fun x y => x || y) a.buckets b.buckets } := by
  unfold BloomFilter.filterUnion
  simp [hh, hb]

theorem filterIntersection_ok (a b : BloomFilter) (hh : a.numHashes = b.numHashes)
    (hb : a.numBuckets = b.numBuckets) :
    a.filterIntersection b = Except.ok
      { num_hashes := a.num_hashes,
        buckets := List.zipWith (fun x y => x && y) a.buckets b.buckets } := by
  unfold BloomFilter.filterIntersection
  simp [hh, hb]

/-- Claim C6: `filterUnion` and `filterIntersection` report a precondition-violation
error exactly when the hash counts or the bucket counts differ; on matching shapes they
return a filter of the same shape whose bucket at each index is the OR (resp. AND) of
the inputs' buckets at that index. -/
theorem bloomFilter_filter_ops (a b : BloomFilter) (i : Nat) :
    ((a.filterUnion b).toOption = none
      ↔ (a.numHashes ≠ b.numHashes ∨ a.numBuckets ≠ b.numBuckets))
    ∧ ((a.filterIntersection b).toOption = none
      ↔ (a.numHashes ≠ b.numHashes ∨ a.numBuckets ≠ b.numBuckets))
    ∧ (a.numHashes = b.numHashes → a.numBuckets = b.numBuckets →
        ((a.filterUnion b).toOption.getD a).numHashes = a.numHashes
        ∧ ((a.filterUnion b).toOption.getD a).numBuckets = a.numBuckets
        ∧ (i < a.numBuckets →
            ((a.filterUnion b).toOption.getD a).buckets.getD i false
              = (a.buckets.getD i false || b.buckets.getD i false))
        ∧ ((a.filterIntersection b).toOption.getD a).numHashes = a.numHashes
        ∧ ((a.filterIntersection b).toOption.getD a).numBuckets = a.numBuckets
        ∧ (i < a.numBuckets →
            ((a.filterIntersection b).toOption.getD a).buckets.getD i false
              = (a.buckets.getD i false && b.buckets.getD i false))) := by
  refine ⟨?_, ?_, ?_⟩
  · by_cases h1 : a.numHashes = b.numHashes
    · by_cases h2 : a.numBuckets = b.numBuckets
      · rw [filterUnion_ok a b h1 h2]
        simp [Except.toOption, h1, h2]
      · unfold BloomFilter.filterUnion
        simp [h1, h2, Except.toOption]
    · unfold BloomFilter.filterUnion
      simp [h1, Except.toOption]
  · by_cases h1 : a.numHashes = b.numHashes
    · by_cases h2 : a.numBuckets = b.numBuckets
      · rw [filterIntersection_ok a b h1 h2]
        simp [Except.toOption, h1, h2]
      · unfold BloomFilter.filterIntersection
        simp [h1, h2, Except.toOption]
    · unfold BloomFilter.filterIntersection
      simp [h1, Except.toOption]
  · intro h1 h2
    have hblen : a.buckets.length = b.buckets.length := h2
    rw [filterUnion_ok a b h1 h2, filterIntersection_ok a b h1 h2]
    refine ⟨rfl, ?_, ?_, rfl, ?_, ?_⟩
    · show (List.zipWith (fun x y => x || y) a.buckets b.buckets).length = a.buckets.length
      rw [List.length_zipWith, hblen, Nat.min_self]
    · intro hi
      exact getD_zipWith _ a.buckets b.buckets hblen i hi
    · show (List.zipWith (fun x y => x && y) a.buckets b.buckets).length = a.buckets.length
      rw [List.length_zipWith, hblen, Nat.min_self]
    · intro hi
      exact getD_zipWith _ a.buckets b.buckets hblen i hi

/-- Witness for C6 on two concrete filters of equal shape. -/
theorem bloomFilter_filter_ops_witness :
    (((BloomFilter.mk 2 [true, false, false]).filterUnion
        (BloomFilter.mk 2 [false, true, false])).toOption = none
      ↔ ((BloomFilter.mk 2 [true, false, false]).numHashes
            ≠ (BloomFilter.mk 2 [false, true, false]).numHashes
         ∨ (BloomFilter.mk 2 [true, false, false]).numBuckets
            ≠ (BloomFilter.mk 2 [false, true, false]).numBuckets))
    ∧ (((BloomFilter.mk 2 [true, false, false]).filterIntersection
        (BloomFilter.mk 2 [false, true, false])).toOption = none
      ↔ ((BloomFilter.mk 2 [true, false, false]).numHashes
            ≠ (BloomFilter.mk 2 [false, true, false]).numHashes
         ∨ (BloomFilter.mk 2 [true, false, false]).numBuckets
            ≠ (BloomFilter.mk 2 [false, true, false]).numBuckets))
    ∧ ((BloomFilter.mk 2 [true, false, false]).numHashes
          = (BloomFilter.mk 2 [false, true, false]).numHashes →
        (BloomFilter.mk 2 [true, false, false]).numBuckets
          = (BloomFilter.mk 2 [false, true, false]).numBuckets →
        (((BloomFilter.mk 2 [true, false, false]).filterUnion
            (BloomFilter.mk 2 [false, true, false])).toOption.getD
              (BloomFilter.mk 2 [true, false, false])).numHashes
          = (BloomFilter.mk 2 [true, false, false]).numHashes
        ∧ (((BloomFilter.mk 2 [true, false, false]).filterUnion
            (BloomFilter.mk 2 [false, true, false])).toOption.getD
              (BloomFilter.mk 2 [true, false, false])).numBuckets
          = (BloomFilter.mk 2 [true, false, false]).numBuckets
        ∧ (1 < (BloomFilter.mk 2 [true, false, false]).numBuckets →
            (((BloomFilter.mk 2 [true, false, false]).filterUnion
                (BloomFilter.mk 2 [false, true, false])).toOption.getD
                  (BloomFilter.mk 2 [true, false, false])).buckets.getD 1 false
              = ((BloomFilter.mk 2 [true, false, false]).buckets.getD 1 false
                 || (BloomFilter.mk 2 [false, true, false]).buckets.getD 1 false))
        ∧ (((BloomFilter.mk 2 [true, false, false]).filterIntersection
            (BloomFilter.mk 2 [false, true, false])).toOption.getD
              (BloomFilter.mk 2 [true, false, false])).numHashes
          = (BloomFilter.mk 2 [true, false, false]).numHashes
        ∧ (((BloomFilter.mk 2 [true, false, false]).filterIntersection
            (BloomFilter.mk 2 [false, true, false])).toOption.getD
              (BloomFilter.mk 2 [true, false, false])).numBuckets
          = (BloomFilter.mk 2 [true, false, false]).numBuckets
        ∧ (1 < (BloomFilter.mk 2 [true, false, false]).numBuckets →
            (((BloomFilter.mk 2 [true, false, false]).filterIntersection
                (BloomFilter.mk 2 [false, true, false])).toOption.getD
                  (BloomFilter.mk 2 [true, false, false])).buckets.getD 1 false
              = ((BloomFilter.mk 2 [true, false, false]).buckets.getD 1 false
                 && (BloomFilter.mk 2 [false, true, false]).buckets.getD 1 false))) :=
  bloomFilter_filter_ops (BloomFilter.mk 2 [true, false, false])
    (BloomFilter.mk 2 [false, true, false]) 1

theorem getD_true_lt (l : List Bool) (i : Nat) (h : l.getD i false = true) : i < l.length := by
  by_contra hl
  push_neg at hl
  rw [List.getD_eq_getElem?_getD, List.getElem?_eq_none hl] at h
  simp at h

theorem contains_of_bucket_le {α : Type} (f g : BloomFilter) (H : α → Nat) (x : α)
    (hnh : g.num_hashes = f.num_hashes) (hlen : g.buckets.length = f.buckets.length)
    (hle : ∀ i : Nat, f.buckets.getD i false = true → g.buckets.getD i false = true)
    (hc : f.contains H x = true) : g.contains H x = true := by
  unfold BloomFilter.contains at hc ⊢
  have hpl : g.probeList (H x) = f.probeList (H x) := by
    unfold BloomFilter.probeList BloomFilter.probe
    rw [hnh, hlen]
  rw [hpl]
  exact List.all_eq_true.mpr (fun idx hidx => hle idx (List.all_eq_true.mp hc idx hidx))

/-- Claim C7: for equal-shaped filters the union contains every value either input
contains, and both `filterUnion` and `filterIntersection` are commutative. -/
theorem bloomFilter_union_monotone_comm {α : Type} (H : α → Nat) (a b : BloomFilter)
    (x : α) (hh : a.numHashes = b.numHashes) (hb : a.numBuckets = b.numBuckets) :
    ((a.contains H x || b.contains H x) = true →
        ((a.filterUnion b).toOption.getD a).contains H x = true)
    ∧ a.filterUnion b = b.filterUnion a
    ∧ a.filterIntersection b = b.filterIntersection a := by
  have hblen : a.buckets.length = b.buckets.length := hb
  have hnh : a.num_hashes = b.num_hashes := hh
  refine ⟨?_, ?_, ?_⟩
  · intro hc
    rw [filterUnion_ok a b hh hb]
    show (BloomFilter.mk a.num_hashes
        (List.zipWith (fun x y => x || y) a.buckets b.buckets)).contains H x = true
    have hulen : (List.zipWith (fun x y => x || y) a.buckets b.buckets).length
        = a.buckets.length := by
      rw [List.length_zipWith, hblen, Nat.min_self]
    have hc2 : a.contains H x = true ∨ b.contains H x = true := by
      simpa using hc
    rcases hc2 with hca | hcb
    · refine contains_of_bucket_le a _ H x rfl hulen (fun i hi => ?_) hca
      have hilt : i < a.buckets.length := getD_true_lt _ _ hi
      rw [getD_zipWith _ a.buckets b.buckets hblen i hilt, hi, Bool.true_or]
    · refine contains_of_bucket_le b _ H x hnh (by rw [hulen, hblen])
        (fun i hi => ?_) hcb
      have hilt : i < a.buckets.length := by
        rw [hblen]
        exact getD_true_lt _ _ hi
      rw [getD_zipWith _ a.buckets b.buckets hblen i hilt, hi, Bool.or_true]
  · rw [filterUnion_ok a b hh hb, filterUnion_ok b a hh.symm hb.symm,
      List.zipWith_comm_of_comm (fun x y => x || y) Bool.or_comm a.buckets b.buckets, hnh]
  · rw [filterIntersection_ok a b hh hb, filterIntersection_ok b a hh.symm hb.symm,
      List.zipWith_comm_of_comm (fun x y => x && y) Bool.and_comm a.buckets b.buckets, hnh]

/-- Witness for C7 on two concrete filters of equal shape. -/
theorem bloomFilter_union_monotone_comm_witness :
    (BloomFilter.mk 2 [true, true, false, true]).numHashes
        = (BloomFilter.mk 2 [false, true, true, true]).numHashes
    ∧ (BloomFilter.mk 2 [true, true, false, true]).numBuckets
        = (BloomFilter.mk 2 [false, true, true, true]).numBuckets
    ∧ ((((BloomFilter.mk 2 [true, true, false, true]).contains id 1
          || (BloomFilter.mk 2 [false, true, true, true]).contains id 1) = true →
        (((BloomFilter.mk 2 [true, true, false, true]).filterUnion
            (BloomFilter.mk 2 [false, true, true, true])).toOption.getD
              (BloomFilter.mk 2 [true, true, false, true])).contains id 1 = true)
       ∧ (BloomFilter.mk 2 [true, true, false, true]).filterUnion
            (BloomFilter.mk 2 [false, true, true, true])
          = (BloomFilter.mk 2 [false, true, true, true]).filterUnion
              (BloomFilter.mk 2 [true, true, false, true])
       ∧ (BloomFilter.mk 2 [true, true, false, true]).filterIntersection
            (BloomFilter.mk 2 [false, true, true, true])
          = (BloomFilter.mk 2 [false, true, true, true]).filterIntersection
              (BloomFilter.mk 2 [true, true, false, true])) :=
  ⟨by decide, by decide,
    bloomFilter_union_monotone_comm id (BloomFilter.mk 2 [true, true, false, true])
      (BloomFilter.mk 2 [false, true, true, true]) 1 (by decide) (by decide)⟩

/-! ### Equality (claim C8) -/

theorem record_comm {α : Type} (f : BloomFilter) (H : α → Nat) (v w : α) :
    (f.record H v).record H w = (f.record H w).record H v := by
  show BloomFilter.mk f.num_hashes
      (setTrues (setTrues f.buckets (f.probeList (H v))) ((f.record H v).probeList (H w)))
    = BloomFilter.mk f.num_hashes
      (setTrues (setTrues f.buckets (f.probeList (H w))) ((f.record H w).probeList (H v)))
  rw [probeList_record f H v (H w), probeList_record f H w (H v), setTrues_setTrues_comm]

theorem recordAll_perm {α : Type} (H : α → Nat) (l1 l2 : List α)
    (hperm : List.Perm l1 l2) (f : BloomFilter) : f.recordAll H l1 = f.recordAll H l2 := by
  unfold BloomFilter.recordAll
  exact hperm.foldl_eq' (fun x hx y hy z => record_comm z H x y) f

theorem beq_iff (a b : BloomFilter) :
    BloomFilter.beq a b = true ↔ (a.num_hashes = b.num_hashes ∧ a.buckets = b.buckets) := by
  unfold BloomFilter.beq
  simp [Bool.and_eq_true]

/-- Claim C8: `operator==` holds iff the hash counts match and the bucket sequences
are element-wise equal (hence equal lengths); fresh filters of identical shape are
equal; recording the same multiset of values in any order yields equal filters; a
`record` that changes the buckets of one filter breaks equality with the unchanged
filter. -/
theorem bloomFilter_equality {α : Type} (a b : BloomFilter) (H : α → Nat) (v : α)
    (nb nh : Nat) (l1 l2 : List α) (hperm : List.Perm l1 l2) :
    (BloomFilter.beq a b = true ↔ (a.num_hashes = b.num_hashes ∧ a.buckets = b.buckets))
    ∧ (BloomFilter.beq a b = true → a.numBuckets = b.numBuckets)
    ∧ BloomFilter.beq (BloomFilter.ofParams nb nh) (BloomFilter.ofParams nb nh) = true
    ∧ a.recordAll H l1 = a.recordAll H l2
    ∧ ((a.record H v).buckets ≠ a.buckets → BloomFilter.beq (a.record H v) a = false) := by
  refine ⟨beq_iff a b, ?_, ?_, recordAll_perm H l1 l2 hperm a, ?_⟩
  · intro hb
    unfold BloomFilter.numBuckets
    rw [((beq_iff a b).mp hb).2]
  · exact (beq_iff _ _).mpr ⟨rfl, rfl⟩
  · intro hne
    unfold BloomFilter.beq
    rw [beq_eq_false_iff_ne.mpr hne, Bool.and_false]

/-- Witness for C8 with a concrete permuted pair of recorded values. -/
theorem bloomFilter_equality_witness :
    List.Perm [2, 5] [5, 2]
    ∧ ((BloomFilter.beq (BloomFilter.ofParams 3 1) (BloomFilter.ofParams 4 1) = true
        ↔ ((BloomFilter.ofParams 3 1).num_hashes = (BloomFilter.ofParams 4 1).num_hashes
           ∧ (BloomFilter.ofParams 3 1).buckets = (BloomFilter.ofParams 4 1).buckets))
       ∧ (BloomFilter.beq (BloomFilter.ofParams 3 1) (BloomFilter.ofParams 4 1) = true →
           (BloomFilter.ofParams 3 1).numBuckets = (BloomFilter.ofParams 4 1).numBuckets)
       ∧ BloomFilter.beq (BloomFilter.ofParams 6 2) (BloomFilter.ofParams 6 2) = true
       ∧ (BloomFilter.ofParams 3 1).recordAll id [2, 5]
           = (BloomFilter.ofParams 3 1).recordAll id [5, 2]
       ∧ (((BloomFilter.ofParams 3 1).record id 7).buckets
             ≠ (BloomFilter.ofParams 3 1).buckets →
           BloomFilter.beq ((BloomFilter.ofParams 3 1).record id 7)
             (BloomFilter.ofParams 3 1) = false)) :=
  ⟨by decide,
    bloomFilter_equality (BloomFilter.ofParams 3 1) (BloomFilter.ofParams 4 1) id 7 6 2
      [2, 5] [5, 2] (by decide)⟩
